import Mathlib

/-!
Verification development for the ORCA staggered-grid geometry module
(`rdy2cpl/grids/base/orca.py`).

The module synthesizes, for each of the three staggered subgrids T, U, V of a
NEMO ORCA tripolar grid, the four-corner coordinate arrays of every cell from
the center-coordinate array of the *other* staggering family, and derives
land/sea masks from a `top_level` indicator field.

Embedding conventions:
* A 2D numpy center array of shape `(ni, nj)` is a function `Nat → Nat → ℤ`
  (the claims under study are exact copy/index identities and one linear
  extrapolation formula, all of which are field-agnostic; ℤ stands in for the
  floating-point values exactly).
* The corner array built by `np.full((ni, nj, 4), _MISSING_VALUE)` followed by
  a sequence of slice assignments is a function `Nat → Nat → Nat → Option ℤ`:
  `none` is the missing-value sentinel `1e20` (an entry still holding the
  sentinel is exactly an entry never assigned), and each numpy slice
  assignment `corner[sel] = rhs` becomes one `assign` step.  The steps are
  applied in source order, so a later assignment overwrites an earlier one,
  exactly as in numpy.
* Negative numpy indices are translated explicitly: `a[-1]` is `a (n - 1)`,
  selected by the condition `i + 1 = n`; `a[:-1]` is selected by `i + 1 < n`.
-/

/-- The three ORCA subgrid tags accepted by `_check` (`"t"`, `"u"`, `"v"`).
An invalid tag raises `ValueError` in the source (`InvalidSubgridError` in the
design taxonomy); the embedding makes invalid tags unrepresentable. -/
inductive Subgrid
  | t
  | u
  | v
deriving DecidableEq

/-- A 2D center-coordinate (or indicator) array of shape `(ni, nj)`,
first index `i` (the x dimension after the transpose `.T`), second `j`. -/
abbrev CenterArray := Nat → Nat → ℤ

/-- A corner array of shape `(ni, nj, 4)` over the missing-value sentinel:
`none` models an entry still equal to `_MISSING_VALUE = 1e20`. -/
abbrev CornerArray := Nat → Nat → Nat → Option ℤ

/-- `np.full((*self.shape, 4), _MISSING_VALUE)`: every entry unassigned. -/
def fullMissing : CornerArray := fun _ _ _ => none

/-- One numpy slice assignment `corner[sel] = rhs`: entries selected by `sel`
take the value `rhs i j`, all others keep their previous value. -/
def assign (sel : Nat → Nat → Nat → Prop) [∀ i j k, Decidable (sel i j k)]
    (rhs : Nat → Nat → ℤ) (c : CornerArray) : CornerArray :=
  fun i j k => if sel i j k then some (rhs i j) else c i j k

/-- `read_corner_latitudes`, branch `subgrid in ("t")` (orca.py lines 98-107);
`v` is the fetched `gphif` values array. -/
def cornerLatsT (ni nj : Nat) (v : CenterArray) : CornerArray :=
  fullMissing
    -- corner_lats[:, :, 0] = lat_values
    |> assign (fun i j k => i < ni ∧ j < nj ∧ k = 0) (fun i j => v i j)
    -- corner_lats[1:, :, 1] = lat_values[:-1, :]
    |> assign (fun i j k => 1 ≤ i ∧ i < ni ∧ j < nj ∧ k = 1) (fun i j => v (i - 1) j)
    -- corner_lats[0, :, 1] = lat_values[-1, :]
    |> assign (fun i j k => i = 0 ∧ j < nj ∧ k = 1) (fun _ j => v (ni - 1) j)
    -- corner_lats[:, 1:, 3] = lat_values[:, :-1]
    |> assign (fun i j k => i < ni ∧ 1 ≤ j ∧ j < nj ∧ k = 3) (fun i j => v i (j - 1))
    -- corner_lats[:, 0, 3] = 2 * lat_values[:, 1] - lat_values[:, 2]
    |> assign (fun i j k => i < ni ∧ j = 0 ∧ k = 3) (fun i _ => 2 * v i 1 - v i 2)
    -- corner_lats[1:, 1:, 2] = lat_values[:-1, :-1]
    |> assign (fun i j k => 1 ≤ i ∧ i < ni ∧ 1 ≤ j ∧ j < nj ∧ k = 2)
        (fun i j => v (i - 1) (j - 1))
    -- corner_lats[0, 1:, 2] = lat_values[-1, :-1]
    |> assign (fun i j k => i = 0 ∧ 1 ≤ j ∧ j < nj ∧ k = 2) (fun _ j => v (ni - 1) (j - 1))
    -- corner_lats[1:, 0, 2] = 2 * lat_values[:-1, 1] - lat_values[:-1, 2]
    |> assign (fun i j k => 1 ≤ i ∧ i < ni ∧ j = 0 ∧ k = 2)
        (fun i _ => 2 * v (i - 1) 1 - v (i - 1) 2)
    -- corner_lats[0, 0, 2] = 2 * lat_values[-1, 1] - lat_values[-1, 2]
    |> assign (fun i j k => i = 0 ∧ j = 0 ∧ k = 2) (fun _ _ => 2 * v (ni - 1) 1 - v (ni - 1) 2)

/-- `read_corner_latitudes`, branch `subgrid == "u"` (orca.py lines 108-117);
`v` is the fetched `gphiv` values array. -/
def cornerLatsU (ni nj : Nat) (v : CenterArray) : CornerArray :=
  fullMissing
    -- corner_lats[:, :, 1] = lat_values
    |> assign (fun i j k => i < ni ∧ j < nj ∧ k = 1) (fun i j => v i j)
    -- corner_lats[:-1, :, 0] = lat_values[1:, :]
    |> assign (fun i j k => i + 1 < ni ∧ j < nj ∧ k = 0) (fun i j => v (i + 1) j)
    -- corner_lats[-1, :, 0] = lat_values[0, :]
    |> assign (fun i j k => i + 1 = ni ∧ j < nj ∧ k = 0) (fun _ j => v 0 j)
    -- corner_lats[:, 1:, 2] = lat_values[:, :-1]
    |> assign (fun i j k => i < ni ∧ 1 ≤ j ∧ j < nj ∧ k = 2) (fun i j => v i (j - 1))
    -- corner_lats[:, 0, 2] = 2 * lat_values[:, 1] - lat_values[:, 2]
    |> assign (fun i j k => i < ni ∧ j = 0 ∧ k = 2) (fun i _ => 2 * v i 1 - v i 2)
    -- corner_lats[:-1, 1:, 3] = lat_values[1:, :-1]
    |> assign (fun i j k => i + 1 < ni ∧ 1 ≤ j ∧ j < nj ∧ k = 3)
        (fun i j => v (i + 1) (j - 1))
    -- corner_lats[-1, 1:, 3] = lat_values[0, :-1]
    |> assign (fun i j k => i + 1 = ni ∧ 1 ≤ j ∧ j < nj ∧ k = 3) (fun _ j => v 0 (j - 1))
    -- corner_lats[:-1, 0, 3] = 2 * lat_values[1:, 1] - lat_values[1:, 2]
    |> assign (fun i j k => i + 1 < ni ∧ j = 0 ∧ k = 3)
        (fun i _ => 2 * v (i + 1) 1 - v (i + 1) 2)
    -- corner_lats[-1, 0, 3] = 2 * lat_values[0, 1] - lat_values[0, 2]
    |> assign (fun i j k => i + 1 = ni ∧ j = 0 ∧ k = 3) (fun _ _ => 2 * v 0 1 - v 0 2)

/-- `rever_lats = lat_values[::-1, -1]` (and `rever_lons` alike): the last
j-row of the values array read in reverse i-order. -/
def reverRow (ni nj : Nat) (v : CenterArray) : Nat → ℤ :=
  fun m => v (ni - 1 - m) (nj - 1)

/-- `read_corner_latitudes`, branch `subgrid == "v"`, the F-pivot special
treatment (orca.py lines 118-132); `v` is the fetched `gphiu` values array. -/
def cornerLatsV (ni nj : Nat) (v : CenterArray) : CornerArray :=
  fullMissing
    -- corner_lats[:, :-1, 0] = lat_values[:, 1:]
    |> assign (fun i j k => i < ni ∧ j + 1 < nj ∧ k = 0) (fun i j => v i (j + 1))
    -- corner_lats[:-1, -1, 0] = rever_lats[1:]
    |> assign (fun i j k => i + 1 < ni ∧ j + 1 = nj ∧ k = 0)
        (fun i _ => reverRow ni nj v (i + 1))
    -- corner_lats[-1, -1, 0] = rever_lats[0]
    |> assign (fun i j k => i + 1 = ni ∧ j + 1 = nj ∧ k = 0) (fun _ _ => reverRow ni nj v 0)
    -- corner_lats[1:, :-1, 1] = lat_values[:-1, 1:]
    |> assign (fun i j k => 1 ≤ i ∧ i < ni ∧ j + 1 < nj ∧ k = 1)
        (fun i j => v (i - 1) (j + 1))
    -- corner_lats[0, :-1, 1] = lat_values[-1, 1:]
    |> assign (fun i j k => i = 0 ∧ j + 1 < nj ∧ k = 1) (fun _ j => v (ni - 1) (j + 1))
    -- corner_lats[:, -1, 1] = rever_lats[:]
    |> assign (fun i j k => i < ni ∧ j + 1 = nj ∧ k = 1) (fun i _ => reverRow ni nj v i)
    -- corner_lats[1:, :, 2] = lat_values[:-1, :]
    |> assign (fun i j k => 1 ≤ i ∧ i < ni ∧ j < nj ∧ k = 2) (fun i j => v (i - 1) j)
    -- corner_lats[0, :, 2] = lat_values[-1, :]
    |> assign (fun i j k => i = 0 ∧ j < nj ∧ k = 2) (fun _ j => v (ni - 1) j)
    -- corner_lats[:, :, 3] = lat_values
    |> assign (fun i j k => i < ni ∧ j < nj ∧ k = 3) (fun i j => v i j)

/-- `OrcaGrid.read_corner_latitudes` (orca.py lines 87-133), as a function of
the already-fetched other-family values array (`gphif`/`gphiv`/`gphiu`
according to `lat_var[subgrid]`). -/
def read_corner_latitudes (sg : Subgrid) (ni nj : Nat) (lat_values : CenterArray) :
    CornerArray :=
  match sg with
  | .t => cornerLatsT ni nj lat_values
  | .u => cornerLatsU ni nj lat_values
  | .v => cornerLatsV ni nj lat_values

/-- `read_corner_longitudes`, branch `subgrid in ("t")` (orca.py lines
146-155); `v` is the fetched `glamf` values array.  Identical to the latitude
branch except at `j = 0`, where corners 2 and 3 copy `lon_values[:, 1]`
instead of linearly extrapolating. -/
def cornerLonsT (ni nj : Nat) (v : CenterArray) : CornerArray :=
  fullMissing
    -- corner_lons[:, :, 0] = lon_values
    |> assign (fun i j k => i < ni ∧ j < nj ∧ k = 0) (fun i j => v i j)
    -- corner_lons[1:, :, 1] = lon_values[:-1, :]
    |> assign (fun i j k => 1 ≤ i ∧ i < ni ∧ j < nj ∧ k = 1) (fun i j => v (i - 1) j)
    -- corner_lons[0, :, 1] = lon_values[-1, :]
    |> assign (fun i j k => i = 0 ∧ j < nj ∧ k = 1) (fun _ j => v (ni - 1) j)
    -- corner_lons[:, 1:, 3] = lon_values[:, :-1]
    |> assign (fun i j k => i < ni ∧ 1 ≤ j ∧ j < nj ∧ k = 3) (fun i j => v i (j - 1))
    -- corner_lons[:, 0, 3] = lon_values[:, 1]
    |> assign (fun i j k => i < ni ∧ j = 0 ∧ k = 3) (fun i _ => v i 1)
    -- corner_lons[1:, 1:, 2] = lon_values[:-1, :-1]
    |> assign (fun i j k => 1 ≤ i ∧ i < ni ∧ 1 ≤ j ∧ j < nj ∧ k = 2)
        (fun i j => v (i - 1) (j - 1))
    -- corner_lons[0, 1:, 2] = lon_values[-1, :-1]
    |> assign (fun i j k => i = 0 ∧ 1 ≤ j ∧ j < nj ∧ k = 2) (fun _ j => v (ni - 1) (j - 1))
    -- corner_lons[1:, 0, 2] = lon_values[:-1, 1]
    |> assign (fun i j k => 1 ≤ i ∧ i < ni ∧ j = 0 ∧ k = 2) (fun i _ => v (i - 1) 1)
    -- corner_lons[0, 0, 2] = lon_values[-1, 1]
    |> assign (fun i j k => i = 0 ∧ j = 0 ∧ k = 2) (fun _ _ => v (ni - 1) 1)

/-- `corner_lons[:, 0, 3] = corner_lons[:, 1, 3]` (orca.py line 164): the only
assignment whose right-hand side reads the corner array itself. -/
def copyCornerRow1ToRow0 (ni : Nat) (c : CornerArray) : CornerArray :=
  fun i j k => if i < ni ∧ j = 0 ∧ k = 3 then c i 1 3 else c i j k

/-- `read_corner_longitudes`, branch `subgrid == "u"` (orca.py lines 156-164);
`v` is the fetched `glamv` values array. -/
def cornerLonsU (ni nj : Nat) (v : CenterArray) : CornerArray :=
  fullMissing
    -- corner_lons[:, :, 1] = lon_values
    |> assign (fun i j k => i < ni ∧ j < nj ∧ k = 1) (fun i j => v i j)
    -- corner_lons[:-1, :, 0] = lon_values[1:, :]
    |> assign (fun i j k => i + 1 < ni ∧ j < nj ∧ k = 0) (fun i j => v (i + 1) j)
    -- corner_lons[-1, :, 0] = lon_values[0, :]
    |> assign (fun i j k => i + 1 = ni ∧ j < nj ∧ k = 0) (fun _ j => v 0 j)
    -- corner_lons[:, 1:, 2] = lon_values[:, :-1]
    |> assign (fun i j k => i < ni ∧ 1 ≤ j ∧ j < nj ∧ k = 2) (fun i j => v i (j - 1))
    -- corner_lons[:, 0, 2] = lon_values[:, 1]
    |> assign (fun i j k => i < ni ∧ j = 0 ∧ k = 2) (fun i _ => v i 1)
    -- corner_lons[:-1, 1:, 3] = lon_values[1:, :-1]
    |> assign (fun i j k => i + 1 < ni ∧ 1 ≤ j ∧ j < nj ∧ k = 3)
        (fun i j => v (i + 1) (j - 1))
    -- corner_lons[-1, 1:, 3] = lon_values[0, :-1]
    |> assign (fun i j k => i + 1 = ni ∧ 1 ≤ j ∧ j < nj ∧ k = 3) (fun _ j => v 0 (j - 1))
    -- corner_lons[:, 0, 3] = corner_lons[:, 1, 3]
    |> copyCornerRow1ToRow0 ni

/-- `read_corner_longitudes`, branch `subgrid == "v"`, the F-pivot special
treatment (orca.py lines 165-179); `v` is the fetched `glamu` values array. -/
def cornerLonsV (ni nj : Nat) (v : CenterArray) : CornerArray :=
  fullMissing
    -- corner_lons[:, :-1, 0] = lon_values[:, 1:]
    |> assign (fun i j k => i < ni ∧ j + 1 < nj ∧ k = 0) (fun i j => v i (j + 1))
    -- corner_lons[:-1, -1, 0] = rever_lons[1:]
    |> assign (fun i j k => i + 1 < ni ∧ j + 1 = nj ∧ k = 0)
        (fun i _ => reverRow ni nj v (i + 1))
    -- corner_lons[-1, -1, 0] = rever_lons[0]
    |> assign (fun i j k => i + 1 = ni ∧ j + 1 = nj ∧ k = 0) (fun _ _ => reverRow ni nj v 0)
    -- corner_lons[1:, :-1, 1] = lon_values[:-1, 1:]
    |> assign (fun i j k => 1 ≤ i ∧ i < ni ∧ j + 1 < nj ∧ k = 1)
        (fun i j => v (i - 1) (j + 1))
    -- corner_lons[0, :-1, 1] = lon_values[-1, 1:]
    |> assign (fun i j k => i = 0 ∧ j + 1 < nj ∧ k = 1) (fun _ j => v (ni - 1) (j + 1))
    -- corner_lons[:, -1, 1] = rever_lons[:]
    |> assign (fun i j k => i < ni ∧ j + 1 = nj ∧ k = 1) (fun i _ => reverRow ni nj v i)
    -- corner_lons[1:, :, 2] = lon_values[:-1, :]
    |> assign (fun i j k => 1 ≤ i ∧ i < ni ∧ j < nj ∧ k = 2) (fun i j => v (i - 1) j)
    -- corner_lons[0, :, 2] = lon_values[-1, :]
    |> assign (fun i j k => i = 0 ∧ j < nj ∧ k = 2) (fun _ j => v (ni - 1) j)
    -- corner_lons[:, :, 3] = lon_values
    |> assign (fun i j k => i < ni ∧ j < nj ∧ k = 3) (fun i j => v i j)

/-- `OrcaGrid.read_corner_longitudes` (orca.py lines 135-180), as a function
of the already-fetched other-family values array (`glamf`/`glamv`/`glamu`
according to `lon_var[subgrid]`). -/
def read_corner_longitudes (sg : Subgrid) (ni nj : Nat) (lon_values : CenterArray) :
    CornerArray :=
  match sg with
  | .t => cornerLonsT ni nj lon_values
  | .u => cornerLonsU ni nj lon_values
  | .v => cornerLonsV ni nj lon_values

/-- `np.take(·, range(1, n + 1), axis, mode="wrap")` index map: element `i` of
the result reads index `i + 1`, and out-of-range indices wrap modulo `n`. -/
def npTakeWrapShift (n i : Nat) : Nat := (i + 1) % n

/-- `np.take(·, range(1, n + 1), axis, mode="clip")` index map: element `i` of
the result reads index `i + 1`, and out-of-range indices clip to `n - 1`. -/
def npTakeClipShift (n i : Nat) : Nat := min (i + 1) (n - 1)

/-- `tmask = np.where(top_level == 0, 1, 0)` (orca.py line 204), on the
transposed `top_level` field. -/
def tmaskOf (top_level : CenterArray) : Nat → Nat → ℤ :=
  fun i j => if top_level i j = 0 then 1 else 0

/-- `OrcaGrid.read_mask` on the no-external-mask-file path (orca.py lines
201-216), as a function of the fetched `top_level` field:
`umask = tmask * tmask.take(range(1, ni+1), axis=0, mode="wrap")`,
`vmask = tmask * tmask.take(range(1, nj+1), axis=1, mode="clip")`. -/
def read_mask (sg : Subgrid) (ni nj : Nat) (top_level : CenterArray) : Nat → Nat → ℤ :=
  match sg with
  | .t => tmaskOf top_level
  | .u => fun i j => tmaskOf top_level i j * tmaskOf top_level (npTakeWrapShift ni i) j
  | .v => fun i j => tmaskOf top_level i j * tmaskOf top_level i (npTakeClipShift nj j)

/-- `_orca_names` (orca.py lines 12-15): the supported-configuration table,
keyed by the `(ni, nj, nk)` dimension triple.  A `none` result is the
`KeyError` branch of `OrcaGrid.__init__`. -/
def orcaNames (dims : Nat × Nat × Nat) : Option String :=
  if dims = (362, 292, 75) then some "ORCA1L75"
  else if dims = (360, 331, 75) then some "eORCA1L75"
  else none

/-- A netCDF dataset, reduced to what `OrcaGrid.__init__` inspects: named
dimension sizes and the set of variable names present. -/
structure NcDataset where
  dims : String → Option Nat
  varNames : List String

/-- The variable names required of the domain-config dataset
(orca.py lines 40-58). -/
def requiredDomainVars : List String :=
  ["glamt", "glamu", "glamv", "glamf", "gphit", "gphiu", "gphiv", "gphif",
   "e1t", "e1u", "e1v", "e1f", "e2t", "e2u", "e2v", "e2f", "top_level"]

/-- The variable names required of the optional masks dataset
(orca.py line 63). -/
def requiredMaskVars : List String := ["tmaskutil", "umaskutil", "vmaskutil"]

/-- The failure modes of `OrcaGrid.__init__` and `_check`.  The first four are
the `RuntimeError`s of the source — the `ConfigurationError` class of the
design; `invalidSubgrid` is the `ValueError` raised by `_check`. -/
inductive OrcaError
  | missingDims
  | unknownDims
  | missingVars
  | missingMaskVars
  | invalidSubgrid
deriving DecidableEq

/-- The state a successful `OrcaGrid.__init__` leaves on the object
(orca.py lines 32-36): `self.shape`, `self.size`, `self.name`. -/
structure OrcaGridState where
  name : String
  shape : Nat × Nat
  size : Nat
deriving DecidableEq

/-- `OrcaGrid.__init__` (orca.py lines 19-64): read the `x`/`y`/`z` dimension
sizes (KeyError → "Missing dimensions"), look the triple up in `_orca_names`
(KeyError → "Unknown dimensions"), check the required variables, and — when a
masks file is given — check its required variables.  Each failure raises
before any grid object is returned, so the embedding yields `Except.error`
with no partial state. -/
def OrcaGrid.init (domain_cfg : NcDataset) (masks : Option NcDataset) :
    Except OrcaError OrcaGridState :=
  match domain_cfg.dims "x", domain_cfg.dims "y", domain_cfg.dims "z" with
  | some ni, some nj, some nk =>
    match orcaNames (ni, nj, nk) with
    | some name =>
      if ∀ s ∈ requiredDomainVars, s ∈ domain_cfg.varNames then
        match masks with
        | some m =>
          if ∀ s ∈ requiredMaskVars, s ∈ m.varNames then
            Except.ok { name := name, shape := (ni, nj), size := ni * nj }
          else Except.error OrcaError.missingMaskVars
        | none => Except.ok { name := name, shape := (ni, nj), size := ni * nj }
      else Except.error OrcaError.missingVars
    | none => Except.error OrcaError.unknownDims
  | _, _, _ => Except.error OrcaError.missingDims

/-- A sample coordinate array used by concrete witnesses. -/
def sampleA : CenterArray := fun i j => i + 10 * j

/-- A second sample coordinate array used by concrete witnesses. -/
def sampleB : CenterArray := fun i j => 2 * i - 3 * j

/-- The concrete `top_level` field used by the mask counterexample: column
`i = 0` is land (`top_level = 0`), column `i = 1` is ocean. -/
def topHalfLand : CenterArray := fun i _ => if i = 0 then 0 else 5

/-- A concrete domain-config dataset with all required variables but the
unsupported dimension triple `(10, 20, 30)`. -/
def dsUnknownDims : NcDataset :=
  { dims := fun s => if s = "x" then some 10 else if s = "y" then some 20
      else if s = "z" then some 30 else none,
    varNames := requiredDomainVars }

example : cornerLatsT 3 3 sampleA 0 0 2 = some (2 * (2 + 10) - (2 + 20)) := by decide

example : cornerLatsT 3 3 sampleA 1 2 2 = some (0 + 10) := by decide

example : cornerLatsV 3 3 sampleA 1 2 1 = some (1 + 20) := by decide

example : cornerLonsU 3 3 sampleA 2 0 3 = some (0 + 0) := by decide

/-- Evaluation of one `assign` step at a selected entry. -/
theorem assign_pos {sel : Nat → Nat → Nat → Prop} [∀ a b c, Decidable (sel a b c)]
    {rhs : Nat → Nat → ℤ} {c : CornerArray} {i j k : Nat} (h : sel i j k) :
    assign sel rhs c i j k = some (rhs i j) := if_pos h

/-- Evaluation of one `assign` step at an entry it does not select. -/
theorem assign_neg {sel : Nat → Nat → Nat → Prop} [∀ a b c, Decidable (sel a b c)]
    {rhs : Nat → Nat → ℤ} {c : CornerArray} {i j k : Nat} (h : ¬sel i j k) :
    assign sel rhs c i j k = c i j k := if_neg h

/-- The zonal-wraparound index `(i + ni - 1) % ni` is `i - 1` away from the
west edge and `ni - 1` at `i = 0`. -/
theorem wrapPredEq (ni i : Nat) (hi : i < ni) :
    (i + ni - 1) % ni = if i = 0 then ni - 1 else i - 1 := by
  rcases Nat.eq_zero_or_pos i with h | h
  · subst h
    rw [if_pos rfl, Nat.zero_add, Nat.mod_eq_of_lt (by omega)]
  · rw [if_neg (by omega)]
    have h1 : i + ni - 1 = (i - 1) + ni := by omega
    rw [h1, Nat.add_mod_right, Nat.mod_eq_of_lt (by omega)]

/-- Every in-range entry of the T-subgrid corner-latitude array is assigned. -/
theorem latsT_total (ni nj : Nat) (v : CenterArray) (i j k : Nat)
    (hi : i < ni) (hj : j < nj) (hk : k < 4) :
    (cornerLatsT ni nj v i j k).isSome = true := by
  simp only [cornerLatsT, assign, fullMissing]
  split_ifs <;>
    first
      | rfl
      | (exfalso
         (try simp only [true_and, and_true, false_and, and_false, not_false_eq_true,
            not_true_eq_false] at *)
         omega)

/-- Every in-range entry of the U-subgrid corner-latitude array is assigned. -/
theorem latsU_total (ni nj : Nat) (v : CenterArray) (i j k : Nat)
    (hi : i < ni) (hj : j < nj) (hk : k < 4) :
    (cornerLatsU ni nj v i j k).isSome = true := by
  simp only [cornerLatsU, assign, fullMissing]
  split_ifs <;>
    first
      | rfl
      | (exfalso
         (try simp only [true_and, and_true, false_and, and_false, not_false_eq_true,
            not_true_eq_false] at *)
         omega)

/-- Every in-range entry of the V-subgrid corner-latitude array is assigned. -/
theorem latsV_total (ni nj : Nat) (v : CenterArray) (i j k : Nat)
    (hi : i < ni) (hj : j < nj) (hk : k < 4) :
    (cornerLatsV ni nj v i j k).isSome = true := by
  simp only [cornerLatsV, assign, fullMissing]
  split_ifs <;>
    first
      | rfl
      | (exfalso
         (try simp only [true_and, and_true, false_and, and_false, not_false_eq_true,
            not_true_eq_false] at *)
         omega)

/-- Every in-range entry of the T-subgrid corner-longitude array is assigned. -/
theorem lonsT_total (ni nj : Nat) (v : CenterArray) (i j k : Nat)
    (hi : i < ni) (hj : j < nj) (hk : k < 4) :
    (cornerLonsT ni nj v i j k).isSome = true := by
  simp only [cornerLonsT, assign, fullMissing]
  split_ifs <;>
    first
      | rfl
      | (exfalso
         (try simp only [true_and, and_true, false_and, and_false, not_false_eq_true,
            not_true_eq_false] at *)
         omega)

/-- Every in-range entry of the U-subgrid corner-longitude array is assigned
(the `j = 0` corner-3 row copies the already-assigned `j = 1` row, which
needs `2 ≤ nj`). -/
theorem lonsU_total (ni nj : Nat) (v : CenterArray) (i j k : Nat)
    (hnj : 2 ≤ nj) (hi : i < ni) (hj : j < nj) (hk : k < 4) :
    (cornerLonsU ni nj v i j k).isSome = true := by
  simp only [cornerLonsU, copyCornerRow1ToRow0, assign, fullMissing]
  split_ifs <;>
    first
      | rfl
      | (exfalso
         (try simp only [true_and, and_true, false_and, and_false, not_false_eq_true,
            not_true_eq_false] at *)
         omega)

/-- Every in-range entry of the V-subgrid corner-longitude array is assigned. -/
theorem lonsV_total (ni nj : Nat) (v : CenterArray) (i j k : Nat)
    (hi : i < ni) (hj : j < nj) (hk : k < 4) :
    (cornerLonsV ni nj v i j k).isSome = true := by
  simp only [cornerLonsV, assign, fullMissing]
  split_ifs <;>
    first
      | rfl
      | (exfalso
         (try simp only [true_and, and_true, false_and, and_false, not_false_eq_true,
            not_true_eq_false] at *)
         omega)

/-- **C1**: for every subgrid tag in {t, u, v} and every input coordinate
array of a recognized configuration shape (`ni ≥ 2`, `nj ≥ 3`),
`read_corner_latitudes` and `read_corner_longitudes` assign all `ni*nj*4`
entries of the returned corner array; no entry remains at the missing-value
sentinel (`none` in the embedding, `1e20` in the source). -/
theorem corner_synthesis_total (sg : Subgrid) (ni nj : Nat)
    (lat_values lon_values : CenterArray) (hni : 2 ≤ ni) (hnj : 3 ≤ nj)
    (i j k : Nat) (hi : i < ni) (hj : j < nj) (hk : k < 4) :
    (read_corner_latitudes sg ni nj lat_values i j k).isSome = true ∧
    (read_corner_longitudes sg ni nj lon_values i j k).isSome = true := by
  cases sg
  · exact ⟨latsT_total ni nj lat_values i j k hi hj hk,
      lonsT_total ni nj lon_values i j k hi hj hk⟩
  · exact ⟨latsU_total ni nj lat_values i j k hi hj hk,
      lonsU_total ni nj lon_values i j k (by omega) hi hj hk⟩
  · exact ⟨latsV_total ni nj lat_values i j k hi hj hk,
      lonsV_total ni nj lon_values i j k hi hj hk⟩

/-- Witness for C1 at a concrete shape, input array and entry. -/
theorem corner_synthesis_total_witness :
    (read_corner_latitudes Subgrid.u 2 3 (fun i j => i + 10 * j) 1 0 3).isSome = true ∧
    (read_corner_longitudes Subgrid.u 2 3 (fun i j => 2 * i - j) 1 0 3).isSome = true :=
  corner_synthesis_total Subgrid.u 2 3 (fun i j => i + 10 * j) (fun i j => 2 * i - j)
    (by decide) (by decide) 1 0 3 (by decide) (by decide) (by decide)

/-- **C2**: without an external mask file, `read_mask` derives
`tmask[i,j] = 1` iff `top_level[i,j] == 0` (else 0),
`umask[i,j] = tmask[i,j] * tmask[(i+1) mod ni, j]` (periodic wraparound in i),
and `vmask[i,j] = tmask[i,j] * tmask[i, min(j+1, nj-1)]` (clamped in j),
for every cell `(i, j)`. -/
theorem read_mask_derivation (ni nj : Nat) (top_level : CenterArray) (i j : Nat) :
    ((read_mask Subgrid.t ni nj top_level i j = 1 ↔ top_level i j = 0) ∧
      (read_mask Subgrid.t ni nj top_level i j = 0 ↔ ¬top_level i j = 0)) ∧
    read_mask Subgrid.u ni nj top_level i j =
      read_mask Subgrid.t ni nj top_level i j *
        read_mask Subgrid.t ni nj top_level ((i + 1) % ni) j ∧
    read_mask Subgrid.v ni nj top_level i j =
      read_mask Subgrid.t ni nj top_level i j *
        read_mask Subgrid.t ni nj top_level i (min (j + 1) (nj - 1)) := by
  refine ⟨⟨?_, ?_⟩, rfl, rfl⟩ <;>
    · simp only [read_mask, tmaskOf]
      split_ifs with h <;> simp [h]

/-- **C4** is false on the code: at `(i, j) = (0, 0)` on a 2×2 grid with
`top_level = topHalfLand`, `t_mask[0,0] = 1` (so the claimed disjunctive
condition holds) yet `u_mask[0,0] = 1 * 0 = 0 ≠ 1` — a U-point is masked only
if *both* flanking T-points are masked, not if either is. -/
theorem mask_monotonicity_counterexample :
    (read_mask Subgrid.t 2 2 topHalfLand 0 0 = 1 ∨
      read_mask Subgrid.t 2 2 topHalfLand ((0 + 1) % 2) 0 = 1) ∧
    ¬read_mask Subgrid.u 2 2 topHalfLand 0 0 = 1 := by decide

/-- **C4 amended**: on the no-external-mask path, `u_mask[i,j] == 1` iff
`t_mask[i,j] == 1` *and* `t_mask[(i+1) mod ni, j] == 1`, and
`v_mask[i,j] == 1` iff `t_mask[i,j] == 1` *and*
`t_mask[i, min(j+1, nj-1)] == 1`. -/
theorem mask_product_rule (ni nj : Nat) (top_level : CenterArray) (i j : Nat) :
    (read_mask Subgrid.u ni nj top_level i j = 1 ↔
      read_mask Subgrid.t ni nj top_level i j = 1 ∧
        read_mask Subgrid.t ni nj top_level ((i + 1) % ni) j = 1) ∧
    (read_mask Subgrid.v ni nj top_level i j = 1 ↔
      read_mask Subgrid.t ni nj top_level i j = 1 ∧
        read_mask Subgrid.t ni nj top_level i (min (j + 1) (nj - 1)) = 1) := by
  simp only [read_mask, tmaskOf, npTakeWrapShift, npTakeClipShift]
  split_ifs <;> norm_num

/-- **C5** is false on the code: an all-zero `top_level` field makes
`np.where(top_level == 0, 1, 0)` equal to 1 everywhere, so on a 2×2 grid the
T, U and V masks at `(0,0)` are 1, not 0. -/
theorem all_zero_top_level_counterexample :
    ¬read_mask Subgrid.t 2 2 (fun _ _ => 0) 0 0 = 0 ∧
    ¬read_mask Subgrid.u 2 2 (fun _ _ => 0) 0 0 = 0 ∧
    ¬read_mask Subgrid.v 2 2 (fun _ _ => 0) 0 0 = 0 := by decide

/-- **C5 amended**: if the `top_level` field is all zero, `read_mask` (no
external mask file) returns a mask that is entirely 1 for each of T, U, V. -/
theorem all_zero_top_level_mask (sg : Subgrid) (ni nj : Nat) (i j : Nat) :
    read_mask sg ni nj (fun _ _ => 0) i j = 1 := by
  cases sg <;> simp [read_mask, tmaskOf]

/-- **C10**: on the no-external-mask path the derived masks are pointwise
bounded by the T mask (`umask[i,j] ≤ tmask[i,j]`, `vmask[i,j] ≤ tmask[i,j]`),
and every entry of every returned mask is 0 or 1. -/
theorem mask_bounded_by_tmask (ni nj : Nat) (top_level : CenterArray) (i j : Nat) :
    read_mask Subgrid.u ni nj top_level i j ≤ read_mask Subgrid.t ni nj top_level i j ∧
    read_mask Subgrid.v ni nj top_level i j ≤ read_mask Subgrid.t ni nj top_level i j ∧
    (read_mask Subgrid.t ni nj top_level i j = 0 ∨
      read_mask Subgrid.t ni nj top_level i j = 1) ∧
    (read_mask Subgrid.u ni nj top_level i j = 0 ∨
      read_mask Subgrid.u ni nj top_level i j = 1) ∧
    (read_mask Subgrid.v ni nj top_level i j = 0 ∨
      read_mask Subgrid.v ni nj top_level i j = 1) := by
  simp only [read_mask, tmaskOf, npTakeWrapShift, npTakeClipShift]
  split_ifs <;> norm_num

/-- **C6**: for the T subgrid at the southern row `j = 0`, the missing
latitude corner values (corner indices 2 and 3) equal the linear reflection
`2*v[:,1] - v[:,2]` of the other-family array (at the zonally shifted column
for corner 2), whereas the missing longitude corner values at the same row
are a direct copy of the nearest valid neighbor value `v[:,1]`, not a linear
extrapolation. -/
theorem t_south_edge_rules (ni nj : Nat) (lat_values lon_values : CenterArray)
    (i : Nat) (hi : i < ni) :
    read_corner_latitudes Subgrid.t ni nj lat_values i 0 3 =
      some (2 * lat_values i 1 - lat_values i 2) ∧
    read_corner_latitudes Subgrid.t ni nj lat_values i 0 2 =
      some (2 * lat_values ((i + ni - 1) % ni) 1 -
        lat_values ((i + ni - 1) % ni) 2) ∧
    read_corner_longitudes Subgrid.t ni nj lon_values i 0 3 =
      some (lon_values i 1) ∧
    read_corner_longitudes Subgrid.t ni nj lon_values i 0 2 =
      some (lon_values ((i + ni - 1) % ni) 1) := by
  rw [wrapPredEq ni i hi]
  refine ⟨?_, ?_, ?_, ?_⟩
  · simp only [read_corner_latitudes, cornerLatsT]
    rw [assign_neg (by omega), assign_neg (by omega), assign_neg (by omega),
      assign_neg (by omega), assign_pos (by omega)]
  · simp only [read_corner_latitudes, cornerLatsT]
    rcases Nat.eq_zero_or_pos i with h | h
    · subst h
      rw [if_pos rfl, assign_pos (by omega)]
    · rw [if_neg (by omega), assign_neg (by omega), assign_pos (by omega)]
  · simp only [read_corner_longitudes, cornerLonsT]
    rw [assign_neg (by omega), assign_neg (by omega), assign_neg (by omega),
      assign_neg (by omega), assign_pos (by omega)]
  · simp only [read_corner_longitudes, cornerLonsT]
    rcases Nat.eq_zero_or_pos i with h | h
    · subst h
      rw [if_pos rfl, assign_pos (by omega)]
    · rw [if_neg (by omega), assign_neg (by omega), assign_pos (by omega)]

/-- Witness for C6 on a concrete 2×3 grid at column `i = 1`. -/
theorem t_south_edge_rules_witness :
    read_corner_latitudes Subgrid.t 2 3 sampleA 1 0 3 =
      some (2 * sampleA 1 1 - sampleA 1 2) ∧
    read_corner_latitudes Subgrid.t 2 3 sampleA 1 0 2 =
      some (2 * sampleA ((1 + 2 - 1) % 2) 1 - sampleA ((1 + 2 - 1) % 2) 2) ∧
    read_corner_longitudes Subgrid.t 2 3 sampleB 1 0 3 = some (sampleB 1 1) ∧
    read_corner_longitudes Subgrid.t 2 3 sampleB 1 0 2 =
      some (sampleB ((1 + 2 - 1) % 2) 1) :=
  t_south_edge_rules 2 3 sampleA sampleB 1 (by decide)

/-- **C9** (implicit): the V subgrid's corner synthesis also applies zonal
periodic wraparound: for corner indices 1 and 2 at `i = 0` and every interior
row, the corner value is taken from the other-family array at `i = ni - 1`,
in both `read_corner_latitudes` and `read_corner_longitudes`. -/
theorem v_zonal_wraparound (ni nj : Nat) (lat_values lon_values : CenterArray)
    (hni : 2 ≤ ni) (j : Nat) (hj : j + 1 < nj) :
    read_corner_latitudes Subgrid.v ni nj lat_values 0 j 1 =
      some (lat_values (ni - 1) (j + 1)) ∧
    read_corner_latitudes Subgrid.v ni nj lat_values 0 j 2 =
      some (lat_values (ni - 1) j) ∧
    read_corner_longitudes Subgrid.v ni nj lon_values 0 j 1 =
      some (lon_values (ni - 1) (j + 1)) ∧
    read_corner_longitudes Subgrid.v ni nj lon_values 0 j 2 =
      some (lon_values (ni - 1) j) := by
  refine ⟨?_, ?_, ?_, ?_⟩
  · simp only [read_corner_latitudes, cornerLatsV]
    rw [assign_neg (by omega), assign_neg (by omega), assign_neg (by omega),
      assign_neg (by omega), assign_pos (by omega)]
  · simp only [read_corner_latitudes, cornerLatsV]
    rw [assign_neg (by omega), assign_pos (by omega)]
  · simp only [read_corner_longitudes, cornerLonsV]
    rw [assign_neg (by omega), assign_neg (by omega), assign_neg (by omega),
      assign_neg (by omega), assign_pos (by omega)]
  · simp only [read_corner_longitudes, cornerLonsV]
    rw [assign_neg (by omega), assign_pos (by omega)]

/-- Witness for C9 on a concrete 2×3 grid at interior row `j = 0`. -/
theorem v_zonal_wraparound_witness :
    read_corner_latitudes Subgrid.v 2 3 sampleA 0 0 1 = some (sampleA (2 - 1) (0 + 1)) ∧
    read_corner_latitudes Subgrid.v 2 3 sampleA 0 0 2 = some (sampleA (2 - 1) 0) ∧
    read_corner_longitudes Subgrid.v 2 3 sampleB 0 0 1 = some (sampleB (2 - 1) (0 + 1)) ∧
    read_corner_longitudes Subgrid.v 2 3 sampleB 0 0 2 = some (sampleB (2 - 1) 0) :=
  v_zonal_wraparound 2 3 sampleA sampleB (by decide) 0 (by decide)

/-- **C3** is false on the code: on a 2×2 grid with the ramp array
`v i j = i`, the V-subgrid northern-row corners at column `i = 0` differ from
those at column `ni - 1 - 0 = 1` for every corner index `k`, in both
`read_corner_latitudes` and `read_corner_longitudes` — so no corner index
satisfies the claimed same-index fold invariant. -/
theorem v_fold_same_index_counterexample :
    read_corner_latitudes Subgrid.v 2 2 (fun i _ => (i : ℤ)) 0 1 0 ≠
      read_corner_latitudes Subgrid.v 2 2 (fun i _ => (i : ℤ)) 1 1 0 ∧
    read_corner_latitudes Subgrid.v 2 2 (fun i _ => (i : ℤ)) 0 1 1 ≠
      read_corner_latitudes Subgrid.v 2 2 (fun i _ => (i : ℤ)) 1 1 1 ∧
    read_corner_latitudes Subgrid.v 2 2 (fun i _ => (i : ℤ)) 0 1 2 ≠
      read_corner_latitudes Subgrid.v 2 2 (fun i _ => (i : ℤ)) 1 1 2 ∧
    read_corner_latitudes Subgrid.v 2 2 (fun i _ => (i : ℤ)) 0 1 3 ≠
      read_corner_latitudes Subgrid.v 2 2 (fun i _ => (i : ℤ)) 1 1 3 ∧
    read_corner_longitudes Subgrid.v 2 2 (fun i _ => (i : ℤ)) 0 1 0 ≠
      read_corner_longitudes Subgrid.v 2 2 (fun i _ => (i : ℤ)) 1 1 0 ∧
    read_corner_longitudes Subgrid.v 2 2 (fun i _ => (i : ℤ)) 0 1 1 ≠
      read_corner_longitudes Subgrid.v 2 2 (fun i _ => (i : ℤ)) 1 1 1 ∧
    read_corner_longitudes Subgrid.v 2 2 (fun i _ => (i : ℤ)) 0 1 2 ≠
      read_corner_longitudes Subgrid.v 2 2 (fun i _ => (i : ℤ)) 1 1 2 ∧
    read_corner_longitudes Subgrid.v 2 2 (fun i _ => (i : ℤ)) 0 1 3 ≠
      read_corner_longitudes Subgrid.v 2 2 (fun i _ => (i : ℤ)) 1 1 3 := by
  decide

/-- **C3 amended**: the exact fold invariant of the V subgrid's northern row
pairs *partner* corner indices at mirrored columns:
`corner[i, nj-1, 1] == corner[ni-1-i, nj-1, 3]` and
`corner[i, nj-1, 0] == corner[ni-1-i, nj-1, 2]` for every column `i`, in both
`read_corner_latitudes` and `read_corner_longitudes`. -/
theorem v_fold_invariant (ni nj : Nat) (lat_values lon_values : CenterArray)
    (i : Nat) (hi : i < ni) (hnj : 1 ≤ nj) :
    read_corner_latitudes Subgrid.v ni nj lat_values i (nj - 1) 1 =
      read_corner_latitudes Subgrid.v ni nj lat_values (ni - 1 - i) (nj - 1) 3 ∧
    read_corner_latitudes Subgrid.v ni nj lat_values i (nj - 1) 0 =
      read_corner_latitudes Subgrid.v ni nj lat_values (ni - 1 - i) (nj - 1) 2 ∧
    read_corner_longitudes Subgrid.v ni nj lon_values i (nj - 1) 1 =
      read_corner_longitudes Subgrid.v ni nj lon_values (ni - 1 - i) (nj - 1) 3 ∧
    read_corner_longitudes Subgrid.v ni nj lon_values i (nj - 1) 0 =
      read_corner_longitudes Subgrid.v ni nj lon_values (ni - 1 - i) (nj - 1) 2 := by
  refine ⟨?_, ?_, ?_, ?_⟩
  · simp only [read_corner_latitudes, cornerLatsV]
    rw [assign_neg (by omega), assign_neg (by omega), assign_neg (by omega),
      assign_pos (by omega)]
    rw [assign_pos (by omega)]
    simp only [reverRow]
  · simp only [read_corner_latitudes, cornerLatsV]
    rcases Nat.lt_or_ge (i + 1) ni with h | h
    · rw [assign_neg (by omega), assign_neg (by omega), assign_neg (by omega),
        assign_neg (by omega), assign_neg (by omega), assign_neg (by omega),
        assign_neg (by omega), assign_pos (by omega)]
      rw [assign_neg (by omega), assign_neg (by omega), assign_pos (by omega)]
      simp only [reverRow]
      have he : ni - 1 - (i + 1) = ni - 1 - i - 1 := by omega
      rw [he]
    · rw [assign_neg (by omega), assign_neg (by omega), assign_neg (by omega),
        assign_neg (by omega), assign_neg (by omega), assign_neg (by omega),
        assign_pos (by omega)]
      rw [assign_neg (by omega), assign_pos (by omega)]
      simp only [reverRow]
      have he : ni - 1 - 0 = ni - 1 := by omega
      rw [he]
  · simp only [read_corner_longitudes, cornerLonsV]
    rw [assign_neg (by omega), assign_neg (by omega), assign_neg (by omega),
      assign_pos (by omega)]
    rw [assign_pos (by omega)]
    simp only [reverRow]
  · simp only [read_corner_longitudes, cornerLonsV]
    rcases Nat.lt_or_ge (i + 1) ni with h | h
    · rw [assign_neg (by omega), assign_neg (by omega), assign_neg (by omega),
        assign_neg (by omega), assign_neg (by omega), assign_neg (by omega),
        assign_neg (by omega), assign_pos (by omega)]
      rw [assign_neg (by omega), assign_neg (by omega), assign_pos (by omega)]
      simp only [reverRow]
      have he : ni - 1 - (i + 1) = ni - 1 - i - 1 := by omega
      rw [he]
    · rw [assign_neg (by omega), assign_neg (by omega), assign_neg (by omega),
        assign_neg (by omega), assign_neg (by omega), assign_neg (by omega),
        assign_pos (by omega)]
      rw [assign_neg (by omega), assign_pos (by omega)]
      simp only [reverRow]
      have he : ni - 1 - 0 = ni - 1 := by omega
      rw [he]

/-- Witness for the amended C3 on a concrete 2×3 grid at column `i = 0`. -/
theorem v_fold_invariant_witness :
    read_corner_latitudes Subgrid.v 2 3 sampleA 0 (3 - 1) 1 =
      read_corner_latitudes Subgrid.v 2 3 sampleA (2 - 1 - 0) (3 - 1) 3 ∧
    read_corner_latitudes Subgrid.v 2 3 sampleA 0 (3 - 1) 0 =
      read_corner_latitudes Subgrid.v 2 3 sampleA (2 - 1 - 0) (3 - 1) 2 ∧
    read_corner_longitudes Subgrid.v 2 3 sampleB 0 (3 - 1) 1 =
      read_corner_longitudes Subgrid.v 2 3 sampleB (2 - 1 - 0) (3 - 1) 3 ∧
    read_corner_longitudes Subgrid.v 2 3 sampleB 0 (3 - 1) 0 =
      read_corner_longitudes Subgrid.v 2 3 sampleB (2 - 1 - 0) (3 - 1) 2 :=
  v_fold_invariant 2 3 sampleA sampleB 0 (by decide) (by decide)

/-- **C7** is false on the code: for the V subgrid the corner-3 longitudes
are a direct copy of the values array (`corner_lons[:, :, 3] = lon_values`),
so with `lon_values i j = j` on a 2×3 grid the `j = 0` and `j = 1` corner-3
columns differ.  (The `corner_lons[:, 0, 3] = corner_lons[:, 1, 3]` line sits
in the U branch of `read_corner_longitudes`, not the V branch.) -/
theorem v_lon_row0_copy_counterexample :
    ¬(read_corner_longitudes Subgrid.v 2 3 (fun _ j => (j : ℤ)) 0 0 3 =
      read_corner_longitudes Subgrid.v 2 3 (fun _ j => (j : ℤ)) 0 1 3) := by
  decide

/-- **C7 amended**: for the *U* subgrid and every input longitude array, the
corner-longitude array returned by `read_corner_longitudes` satisfies
`corner_lons[:, 0, 3] == corner_lons[:, 1, 3]` (the `j = 0` corner-3 column
is a copy of the already-computed `j = 1` corner-3 column). -/
theorem u_lon_row0_copy (ni nj : Nat) (lon_values : CenterArray) (i : Nat)
    (hi : i < ni) :
    read_corner_longitudes Subgrid.u ni nj lon_values i 0 3 =
      read_corner_longitudes Subgrid.u ni nj lon_values i 1 3 := by
  simp only [read_corner_longitudes, cornerLonsU, copyCornerRow1ToRow0]
  split_ifs <;>
    first
      | rfl
      | (exfalso
         (try simp only [true_and, and_true, false_and, and_false, not_false_eq_true,
            not_true_eq_false] at *)
         (try omega))

/-- Witness for the amended C7 on a concrete 2×3 grid at column `i = 1`. -/
theorem u_lon_row0_copy_witness :
    read_corner_longitudes Subgrid.u 2 3 sampleB 1 0 3 =
      read_corner_longitudes Subgrid.u 2 3 sampleB 1 1 3 :=
  u_lon_row0_copy 2 3 sampleB 1 (by decide)

/-- **C8**: constructing an `OrcaGrid` from a dataset whose `(ni, nj, nk)`
dimension triple is not in the supported table raises the source's
`RuntimeError` (the design's `ConfigurationError`), never silently defaults,
and — the result being `Except.error` — no partially constructed grid state
is returned; likewise missing required dimensions or variables raise the
same error class. -/
theorem init_fails_closed (domain_cfg : NcDataset) (masks : Option NcDataset) :
    (∀ ni nj nk, domain_cfg.dims "x" = some ni → domain_cfg.dims "y" = some nj →
      domain_cfg.dims "z" = some nk → orcaNames (ni, nj, nk) = none →
      OrcaGrid.init domain_cfg masks = Except.error OrcaError.unknownDims) ∧
    (domain_cfg.dims "x" = none ∨ domain_cfg.dims "y" = none ∨
        domain_cfg.dims "z" = none →
      OrcaGrid.init domain_cfg masks = Except.error OrcaError.missingDims) ∧
    (∀ ni nj nk nm, domain_cfg.dims "x" = some ni → domain_cfg.dims "y" = some nj →
      domain_cfg.dims "z" = some nk → orcaNames (ni, nj, nk) = some nm →
      ¬(∀ s ∈ requiredDomainVars, s ∈ domain_cfg.varNames) →
      OrcaGrid.init domain_cfg masks = Except.error OrcaError.missingVars) := by
  refine ⟨?_, ?_, ?_⟩
  · intro ni nj nk hx hy hz hname
    simp [OrcaGrid.init, hx, hy, hz, hname]
  · intro h
    rcases hx : domain_cfg.dims "x" with _ | ni
    · simp [OrcaGrid.init, hx]
    · rcases hy : domain_cfg.dims "y" with _ | nj
      · simp [OrcaGrid.init, hx, hy]
      · rcases hz : domain_cfg.dims "z" with _ | nk
        · simp [OrcaGrid.init, hx, hy, hz]
        · exfalso
          rcases h with h | h | h <;> simp_all
  · intro ni nj nk nm hx hy hz hname hvars
    simp [OrcaGrid.init, hx, hy, hz, hname, hvars]

/-- Witness for C8: the concrete dataset with unsupported triple
`(10, 20, 30)` is rejected with the unknown-dimensions error. -/
theorem init_fails_closed_witness :
    OrcaGrid.init dsUnknownDims none = Except.error OrcaError.unknownDims :=
  (init_fails_closed dsUnknownDims none).1 10 20 30 rfl rfl rfl (by decide)
